import Mathlib

/-!
Shallow embedding of the query-progress core of the `acm20` repository:
the progress state store (`useQueryProgressStore`), the progress event
consumer (`ProgressTracker.handleProgressEvent`), the cost/duration
estimator (`src/lib/utils/cost-calculator.ts`) and the query
configuration store (`src/lib/stores/query-store.ts`).

JavaScript numbers are modelled as rationals (`ℚ`), timestamps from
`Date.now()` as an explicit `now : Nat` argument threaded through the
store actions, `undefined`-able values as `Option`, and
`Record<string, unknown>` metadata bags as functions
`String → Option Int` (the `unknown` payloads that occur in the claims
are integers).
-/

namespace Acm20

/-- A JS `Record<string, unknown>` metadata bag: lookup by string key. -/
def JsRecord : Type := String → Option Int

/-- The empty object literal. -/
def emptyRecord : JsRecord := fun _ => none

/-- JS object spread `{...a, ...b}`: keys of `b` override keys of `a`. -/
def spread (a b : JsRecord) : JsRecord :=
  fun k =>
    match b k with
    | some v => some v
    | none => a k

/-- Build a record from an association list (used for concrete literals
such as `{a:1}`). -/
def recOf (l : List (String × Int)) : JsRecord :=
  fun k => (l.find? (fun p => p.1 == k)).map (fun p => p.2)

/-- `QueryStepStatus` from `query-progress-store`. -/
inductive QueryStepStatus
  | idle
  | active
  | completed
  | error
deriving DecidableEq

/-- `QueryProgressStep` from `query-progress-store`. Optional fields of
the TS interface are `Option`s; fields absent at construction default to
`none` (JS `undefined`). -/
structure QueryProgressStep where
  id : String
  label : String
  detail : Option String := none
  status : QueryStepStatus
  startedAt : Option Nat := none
  completedAt : Option Nat := none
  metadata : Option JsRecord := none

/-- The state half of `useQueryProgressStore`. -/
structure QueryProgressState where
  steps : List QueryProgressStep
  estimatedSeconds : Option ℚ

/-- `initialize(steps)`: replace the step list, each step `idle`, and
clear the estimate (source name: `initialize`). -/
def initSteps (stepsInit : List (String × String)) : QueryProgressState :=
  { steps := stepsInit.map (fun p => { id := p.1, label := p.2, status := .idle }),
    estimatedSeconds := none }

/-- `startStep(id, detail?)`: the matching step becomes `active` with a
fresh `startedAt`; the `detail` property is set to the argument (also
when the argument is `undefined`, as the JS spread
`{...step, detail, ...}` does); `completedAt` is cleared. -/
def startStep (now : Nat) (id : String) (detail : Option String)
    (s : QueryProgressState) : QueryProgressState :=
  { s with
    steps := s.steps.map (fun step =>
      if step.id = id then
        { step with
          detail := detail
          status := .active
          startedAt := some now
          completedAt := none }
      else step) }

/-- `completeStep(id, metadata?)`: the matching step becomes `completed`
with a fresh `completedAt`, and `metadata` becomes
`{...step.metadata, ...metadata}` (spreading `undefined` spreads
nothing). -/
def completeStep (now : Nat) (id : String) (metadata : Option JsRecord)
    (s : QueryProgressState) : QueryProgressState :=
  { s with
    steps := s.steps.map (fun step =>
      if step.id = id then
        { step with
          status := .completed
          completedAt := some now
          metadata := some (spread (step.metadata.getD emptyRecord)
            (metadata.getD emptyRecord)) }
      else step) }

/-- `failStep(id, message?)`: the matching step becomes `error` with a
fresh `completedAt`; `detail` becomes `message ?? step.detail`. -/
def failStep (now : Nat) (id : String) (message : Option String)
    (s : QueryProgressState) : QueryProgressState :=
  { s with
    steps := s.steps.map (fun step =>
      if step.id = id then
        { step with
          status := .error
          detail := match message with
            | some m => some m
            | none => step.detail
          completedAt := some now }
      else step) }

/-- `setEstimatedTime(seconds)`. -/
def setEstimatedTime (seconds : ℚ) (s : QueryProgressState) : QueryProgressState :=
  { s with estimatedSeconds := some seconds }

/-- `reset()`. -/
def resetProgress : QueryProgressState :=
  { steps := [], estimatedSeconds := none }

/-- Status field of an inbound step event (`"active" | "completed" | "error"`). -/
inductive StepEventStatus
  | active
  | completed
  | error
deriving DecidableEq

/-- `ProgressEventPayload` from `ProgressTracker`: either an estimate
event or a step event. -/
inductive ProgressEventPayload
  | estimate (seconds : ℚ)
  | step (stepId : String) (status : StepEventStatus)
      (detail : Option String) (metadata : Option JsRecord)

/-- `handleProgressEvent` from `ProgressTracker`: dispatches an inbound
payload to the store actions; an `error` step event dispatches
`failStep(stepId, detail ?? "Step failed")`. -/
def handleProgressEvent (now : Nat) (payload : ProgressEventPayload)
    (s : QueryProgressState) : QueryProgressState :=
  match payload with
  | .estimate seconds => setEstimatedTime seconds s
  | .step stepId status detail metadata =>
    match status with
    | .active => startStep now stepId detail s
    | .completed => completeStep now stepId metadata s
    | .error => failStep now stepId (some (detail.getD "Step failed")) s

/-- `SearchDepth` from `cost-calculator.ts`. -/
inductive SearchDepth
  | quick
  | standard
  | deep
deriving DecidableEq

/-- `CostConfig` from `cost-calculator.ts` (`maxResults` optional,
defaulting to 20 inside `calculateQueryCost`). -/
structure CostConfig where
  sources : List String
  llms : List String
  depth : SearchDepth
  maxResults : Option ℚ := none

/-- `SOURCE_BASE_COST` lookup table. -/
def SOURCE_BASE_COST : String → Option ℚ :=
  fun s =>
    if s = "openalex" then some (15/100)
    else if s = "google-patents" then some (25/100)
    else if s = "pubmed" then some (1/10)
    else if s = "document-vault" then some (5/100)
    else none

/-- `LLM_BASE_COST` lookup table. -/
def LLM_BASE_COST : String → Option ℚ :=
  fun s =>
    if s = "claude" then some (18/10)
    else if s = "gpt4" then some (32/10)
    else if s = "gemini" then some (12/10)
    else if s = "ollama" then some 0
    else none

/-- `DEPTH_MULTIPLIER` lookup table. -/
def DEPTH_MULTIPLIER : SearchDepth → ℚ
  | .quick => 1/2
  | .standard => 1
  | .deep => 26/10

/-- `MINIMUM_COST`. -/
def MINIMUM_COST : ℚ := 1/2

/-- `parseFloat(x.toFixed(2))` on a nonnegative decimal value: half-up
rounding at the cent boundary. -/
def toFixed2 (q : ℚ) : ℚ := (Int.floor (q * 100 + 1/2) : ℚ) / 100

/-- The cost pipeline of `calculateQueryCost` before the final
`toFixed(2)` rounding (lines 33-46 of `cost-calculator.ts`, including
the `Math.max(MINIMUM_COST, ...)` floor). -/
def rawQueryCost (config : CostConfig) : ℚ :=
  let maxResults := config.maxResults.getD 20
  let sourceCost := config.sources.foldl
    (fun total source => total + ((SOURCE_BASE_COST source).getD (1/10))) 0
  let llmCost := config.llms.foldl
    (fun total llm => total + ((LLM_BASE_COST llm).getD 1)) 0
  let resultsMultiplier := max 1 (maxResults / 20)
  let depthMultiplier := DEPTH_MULTIPLIER config.depth
  let totalCost := (sourceCost + llmCost) * depthMultiplier * resultsMultiplier
  max MINIMUM_COST totalCost

/-- `calculateQueryCost` from `cost-calculator.ts`. -/
def calculateQueryCost (config : CostConfig) : ℚ :=
  toFixed2 (rawQueryCost config)

/-- JS `Math.round`: round half toward positive infinity. -/
def jsRound (q : ℚ) : ℤ := Int.floor (q + 1/2)

/-- `estimateQueryDuration` from `cost-calculator.ts`. -/
def estimateQueryDuration (depth : SearchDepth) (sourcesCount llmCount : ℚ) : ℤ :=
  let base : ℚ := if depth = .quick then 8 else if depth = .standard then 18 else 45
  let sourceAdjustment := min 12 (sourcesCount * (5/2))
  let llmAdjustment := min 10 (llmCount * 3)
  jsRound (base + sourceAdjustment + llmAdjustment)

/-- `QueryOptions` from `query-store.ts`. -/
structure QueryOptions where
  searchDepth : SearchDepth
  maxResults : ℚ
  dateFrom : Option String := none
  dateTo : Option String := none
  openAccessOnly : Bool

/-- A `Partial<QueryOptions>` argument to `setOptions`: each field is
either absent (`none`) or supplies a new value. -/
structure QueryOptionsPatch where
  searchDepth : Option SearchDepth := none
  maxResults : Option ℚ := none
  dateFrom : Option (Option String) := none
  dateTo : Option (Option String) := none
  openAccessOnly : Option Bool := none

/-- The state half of `useQueryStore`. -/
structure QueryStoreState where
  query : String
  sources : List String
  llms : List String
  options : QueryOptions

/-- `toggleSource(source)`: remove every occurrence if present
(`filter(s => s !== source)`), else append (`[...sources, source]`). -/
def toggleSource (source : String) (s : QueryStoreState) : QueryStoreState :=
  { s with
    sources :=
      if s.sources.contains source then
        s.sources.filter (fun x => x != source)
      else
        s.sources ++ [source] }

/-- `setOptions(options)`: `{...state.options, ...options}`, a
shallow merge of the patch into the existing options. -/
def setOptions (p : QueryOptionsPatch) (s : QueryStoreState) : QueryStoreState :=
  { s with
    options :=
      { searchDepth := p.searchDepth.getD s.options.searchDepth
        maxResults := p.maxResults.getD s.options.maxResults
        dateFrom := p.dateFrom.getD s.options.dateFrom
        dateTo := p.dateTo.getD s.options.dateTo
        openAccessOnly := p.openAccessOnly.getD s.options.openAccessOnly } }

/-- Mapping a function that fixes every element of a list leaves the
list unchanged. -/
theorem map_id_of_mem {α : Type} (f : α → α) (l : List α)
    (h : ∀ x ∈ l, f x = x) : l.map f = l := by
  rw [List.map_congr_left h]
  exact List.map_id l

/-- Folding addition of `f` over a list from `a` is `a` plus the sum of
the mapped list. -/
theorem foldl_add_map_sum {α : Type} (f : α → ℚ) :
    ∀ (l : List α) (a : ℚ),
      l.foldl (fun total x => total + f x) a = a + (l.map f).sum := by
  intro l
  induction l with
  | nil => intro a; simp
  | cons b t ih => intro a; simp [List.foldl_cons, ih, add_assoc]

/-- C1 counterexample: in a one-step run where step `x` currently has
detail `"d"`, calling `startStep` with the detail argument omitted
leaves the step with no detail — the previous detail is cleared, not
preserved. -/
theorem startStep_detail_not_preserved_cex :
    ((startStep 5 "x" (some "d") (initSteps [("x", "X")])).steps.map
        QueryProgressStep.detail = [some "d"])
    ∧ ((startStep 7 "x" none (startStep 5 "x" (some "d")
        (initSteps [("x", "X")]))).steps.map
        QueryProgressStep.detail = [none]) :=
  ⟨rfl, rfl⟩

/-- C1 (amended): for every run containing a step with id `x`, calling
`startStep(x)` with the detail argument omitted sets that step's status
to `active`, records the new `startedAt`, clears `completedAt`, and
sets `detail` to `undefined`, clearing any previous detail value. -/
theorem startStep_omitted_detail_clears (s : QueryProgressState)
    (x : String) (now : Nat) (i : Nat) (st : QueryProgressStep)
    (hget : s.steps[i]? = some st) (hid : st.id = x) :
    (startStep now x none s).steps[i]? =
      some { st with
               detail := none,
               status := .active,
               startedAt := some now,
               completedAt := none } := by
  simp [startStep, List.getElem?_map, hget, hid]

/-- Witness for C1 (amended) at a concrete one-step run. -/
theorem startStep_omitted_detail_clears_witness :
    (startStep 7 "x" none (initSteps [("x", "X")])).steps[0]? =
      some { id := "x", label := "X", detail := none, status := .active,
             startedAt := some 7, completedAt := none, metadata := none } :=
  startStep_omitted_detail_clears (initSteps [("x", "X")]) "x" 7 0
    { id := "x", label := "X", status := .idle } rfl rfl

/-- The final state of the C2 end-to-end scenario: initialize with steps
`a`, `b`, `c`, then consume `active(a)`, `completed(a)`, `active(b)`,
`error(b, "timeout")`, `estimate(30)` at successive times 1..5. -/
def scenarioFinal : QueryProgressState :=
  handleProgressEvent 5 (.estimate 30)
    (handleProgressEvent 4 (.step "b" .error (some "timeout") none)
      (handleProgressEvent 3 (.step "b" .active none none)
        (handleProgressEvent 2 (.step "a" .completed none none)
          (handleProgressEvent 1 (.step "a" .active none none)
            (initSteps [("a", "A"), ("b", "B"), ("c", "C")])))))

/-- C2: after the end-to-end scenario, step `a` is `completed`, step `b`
is `error` with detail `"timeout"`, step `c` is `idle`, and
`estimatedSeconds` is 30. -/
theorem scenario_final_state :
    scenarioFinal.steps.map (fun st => (st.id, st.status, st.detail)) =
      [("a", .completed, none), ("b", .error, some "timeout"),
       ("c", .idle, none)]
    ∧ scenarioFinal.estimatedSeconds = some 30 :=
  ⟨rfl, rfl⟩

/-- C3: when `x` matches no step id, `startStep`, `completeStep` and
`failStep` are no-ops: they return the state unchanged (and, being
total functions, raise no error). -/
theorem absent_id_ops_are_noops (s : QueryProgressState) (x : String)
    (h : ∀ st ∈ s.steps, st.id ≠ x) (now : Nat) (d : Option String)
    (md : Option JsRecord) (msg : Option String) :
    startStep now x d s = s ∧ completeStep now x md s = s
    ∧ failStep now x msg s = s := by
  obtain ⟨steps, est⟩ := s
  refine ⟨?_, ?_, ?_⟩ <;>
    · simp only [startStep, completeStep, failStep]
      congr 1
      exact map_id_of_mem _ _ (fun st hst => if_neg (h st hst))

/-- Witness for C3: the three operations with the unmatched id `"z"` on
a concrete one-step run. -/
theorem absent_id_ops_are_noops_witness :
    startStep 1 "z" none (initSteps [("x", "X")]) = initSteps [("x", "X")]
    ∧ completeStep 1 "z" none (initSteps [("x", "X")]) = initSteps [("x", "X")]
    ∧ failStep 1 "z" none (initSteps [("x", "X")]) = initSteps [("x", "X")] :=
  absent_id_ops_are_noops (initSteps [("x", "X")]) "z" (by decide) 1 none none none

/-- C4: repeated completions shallow-merge metadata. For every run
containing a step with id `x`: (general part) after
`completeStep(x, m1)` then `completeStep(x, m2)` the step's metadata at
each key is `m2`'s value if present, else `m1`'s value if present, else
the original value — new values overwrite existing keys and other
existing keys are preserved; (instance) if the step had no metadata,
`completeStep(x, {a:1})` then `completeStep(x, {b:2})`
leaves metadata `{a:1, b:2}` exactly. -/
theorem completeStep_metadata_shallow_merge (s : QueryProgressState)
    (x : String) (i : Nat) (st : QueryProgressStep) (t1 t2 : Nat)
    (hget : s.steps[i]? = some st) (hid : st.id = x) :
    (∀ m1 m2 : JsRecord, ∃ md : JsRecord,
      (completeStep t2 x (some m2)
          (completeStep t1 x (some m1) s)).steps[i]? =
        some { st with
                 status := .completed,
                 completedAt := some t2,
                 metadata := some md }
      ∧ ∀ k, md k =
          match m2 k with
          | some v => some v
          | none =>
            match m1 k with
            | some v => some v
            | none => (st.metadata.getD emptyRecord) k)
    ∧ (st.metadata = none → ∃ md : JsRecord,
      (completeStep t2 x (some (recOf [("b", 2)]))
          (completeStep t1 x (some (recOf [("a", 1)])) s)).steps[i]? =
        some { st with
                 status := .completed,
                 completedAt := some t2,
                 metadata := some md }
      ∧ md "a" = some 1 ∧ md "b" = some 2
      ∧ ∀ k, k ≠ "a" → k ≠ "b" → md k = none) := by
  constructor
  · intro m1 m2
    refine ⟨spread (spread (st.metadata.getD emptyRecord) m1) m2, ?_, ?_⟩
    · simp [completeStep, List.getElem?_map, hget, hid]
    · intro k
      rfl
  · intro hmd
    refine ⟨spread (spread emptyRecord (recOf [("a", 1)])) (recOf [("b", 2)]),
      ?_, rfl, rfl, ?_⟩
    · simp [completeStep, List.getElem?_map, hget, hid, hmd]
    · intro k hka hkb
      simp only [spread, recOf, emptyRecord, List.find?_cons, List.find?_nil]
      have hb : (("b", (2 : Int)).1 == k) = false := by
        simp [Ne.symm hkb]
      have ha : (("a", (1 : Int)).1 == k) = false := by
        simp [Ne.symm hka]
      simp [hb, ha]

/-- Witness for C4 at a concrete one-step run with no prior metadata. -/
theorem completeStep_metadata_shallow_merge_witness :
    ∃ md : JsRecord,
      (completeStep 2 "x" (some (recOf [("b", 2)]))
          (completeStep 1 "x" (some (recOf [("a", 1)]))
            (initSteps [("x", "X")]))).steps[0]? =
        some { id := "x", label := "X", detail := none,
               status := .completed, startedAt := none,
               completedAt := some 2, metadata := some md }
      ∧ md "a" = some 1 ∧ md "b" = some 2
      ∧ ∀ k, k ≠ "a" → k ≠ "b" → md k = none :=
  (completeStep_metadata_shallow_merge (initSteps [("x", "X")]) "x" 0
    { id := "x", label := "X", status := .idle } 1 2 rfl rfl).2 rfl

/-- C5: `calculateQueryCost` is the per-source cost sum (default 0.1 for
unknown sources) plus the per-model cost sum (default 1 for unknown
models), times the depth multiplier, times `max 1 (maxResults / 20)`,
floored at 0.5 and rounded to cents; the spec's two worked examples
yield 2.05 and 0.50. -/
theorem calculateQueryCost_spec :
    (∀ config : CostConfig,
      calculateQueryCost config =
        toFixed2 (max (1/2)
          (((config.sources.map
                (fun s => (SOURCE_BASE_COST s).getD (1/10))).sum
            + (config.llms.map
                (fun l => (LLM_BASE_COST l).getD 1)).sum)
            * DEPTH_MULTIPLIER config.depth
            * max 1 (config.maxResults.getD 20 / 20))))
    ∧ calculateQueryCost
        { sources := ["openalex", "pubmed"], llms := ["claude"],
          depth := .standard, maxResults := some 20 } = 205/100
    ∧ calculateQueryCost
        { sources := [], llms := [], depth := .quick,
          maxResults := some 20 } = 1/2 := by
  refine ⟨?_, ?_, ?_⟩
  · intro config
    simp [calculateQueryCost, rawQueryCost, MINIMUM_COST, foldl_add_map_sum]
  · have h1 : rawQueryCost
        { sources := ["openalex", "pubmed"], llms := ["claude"],
          depth := .standard, maxResults := some 20 } = 41/20 := by
      simp [rawQueryCost, SOURCE_BASE_COST, LLM_BASE_COST,
        DEPTH_MULTIPLIER, MINIMUM_COST]
      norm_num
    rw [calculateQueryCost, h1]
    norm_num [toFixed2]
  · have h1 : rawQueryCost
        { sources := [], llms := [], depth := .quick,
          maxResults := some 20 } = 1/2 := by
      simp [rawQueryCost, SOURCE_BASE_COST, LLM_BASE_COST,
        DEPTH_MULTIPLIER, MINIMUM_COST]
    rw [calculateQueryCost, h1]
    norm_num [toFixed2]

/-- C6: for every configuration, `calculateQueryCost` returns an exact
number of cents (an integer over 100, i.e. at most 2 decimal places),
and that integer is the half-up rounding of the unrounded cost at the
cent boundary: it is within half a cent above and strictly less than
half a cent below `100 *` the unrounded cost, with exact-half ties
rounding upward. -/
theorem calculateQueryCost_two_decimals_half_up (config : CostConfig) :
    ∃ n : ℤ, calculateQueryCost config = (n : ℚ) / 100
      ∧ (n : ℚ) ≤ rawQueryCost config * 100 + 1/2
      ∧ rawQueryCost config * 100 - 1/2 < (n : ℚ) := by
  refine ⟨Int.floor (rawQueryCost config * 100 + 1/2), rfl,
    Int.floor_le _, ?_⟩
  have h := Int.lt_floor_add_one (rawQueryCost config * 100 + 1/2)
  linarith

/-- C7: `estimateQueryDuration` is the rounded sum of the depth base
(8 quick, 18 standard, 45 deep), the source adjustment
`min 12 (sourcesCount * 2.5)` and the model adjustment
`min 10 (llmCount * 3)`; in particular at depth deep with 3 sources and
2 models it returns 59. -/
theorem estimateQueryDuration_spec :
    (∀ s l : ℚ, estimateQueryDuration .quick s l =
      jsRound (8 + min 12 (s * (5/2)) + min 10 (l * 3)))
    ∧ (∀ s l : ℚ, estimateQueryDuration .standard s l =
      jsRound (18 + min 12 (s * (5/2)) + min 10 (l * 3)))
    ∧ (∀ s l : ℚ, estimateQueryDuration .deep s l =
      jsRound (45 + min 12 (s * (5/2)) + min 10 (l * 3)))
    ∧ estimateQueryDuration .deep 3 2 = 59 := by
  refine ⟨fun s l => rfl, fun s l => rfl, fun s l => rfl, ?_⟩
  show jsRound ((45 : ℚ) + min 12 (3 * (5/2)) + min 10 (2 * 3)) = 59
  rw [jsRound]
  norm_num

/-- C8: toggling the same source id twice leaves the sources list with
exactly the same set of members as before the two toggles. -/
theorem toggleSource_twice_same_members (s : QueryStoreState)
    (source x : String) :
    x ∈ (toggleSource source (toggleSource source s)).sources
      ↔ x ∈ s.sources := by
  by_cases h : source ∈ s.sources
  · have hc : s.sources.contains source = true := List.elem_iff.mpr h
    have hnot : (s.sources.filter
        (fun y => y != source)).contains source = false := by
      simp
    simp only [toggleSource, hc, if_true, hnot, Bool.false_eq_true,
      reduceIte]
    simp only [List.mem_append, List.mem_filter, List.mem_singleton,
      bne_iff_ne, ne_eq, decide_eq_true_eq]
    constructor
    · rintro (⟨hx, _⟩ | rfl)
      · exact hx
      · exact h
    · intro hx
      by_cases hxs : x = source
      · exact Or.inr hxs
      · exact Or.inl ⟨hx, hxs⟩
  · have hc : s.sources.contains source = false := by
      simp [List.elem_iff, h]
    have hmem : (s.sources ++ [source]).contains source = true := by
      simp [List.elem_iff]
    simp only [toggleSource, hc, hmem, Bool.false_eq_true, reduceIte,
      if_true]
    simp only [List.filter_append, List.mem_append, List.mem_filter,
      bne_iff_ne, ne_eq, decide_eq_true_eq]
    constructor
    · rintro (⟨hx, _⟩ | hx)
      · exact hx
      · simp at hx
    · intro hx
      exact Or.inl ⟨hx, fun e => h (e ▸ hx)⟩

/-- C9: `setOptions` shallow-merges the patch into the existing options:
each option field absent from the patch keeps its previous value, each
field present in the patch takes the patched value (shown for
`maxResults`), and the rest of the store is untouched. -/
theorem setOptions_shallow_merge (s : QueryStoreState)
    (p : QueryOptionsPatch) :
    ((setOptions p s).query = s.query)
    ∧ ((setOptions p s).sources = s.sources)
    ∧ ((setOptions p s).llms = s.llms)
    ∧ (p.searchDepth = none →
        (setOptions p s).options.searchDepth = s.options.searchDepth)
    ∧ (p.maxResults = none →
        (setOptions p s).options.maxResults = s.options.maxResults)
    ∧ (p.dateFrom = none →
        (setOptions p s).options.dateFrom = s.options.dateFrom)
    ∧ (p.dateTo = none →
        (setOptions p s).options.dateTo = s.options.dateTo)
    ∧ (p.openAccessOnly = none →
        (setOptions p s).options.openAccessOnly = s.options.openAccessOnly)
    ∧ (∀ v, p.maxResults = some v →
        (setOptions p s).options.maxResults = v) :=
  ⟨rfl, rfl, rfl,
   fun h => by simp [setOptions, h],
   fun h => by simp [setOptions, h],
   fun h => by simp [setOptions, h],
   fun h => by simp [setOptions, h],
   fun h => by simp [setOptions, h],
   fun v hv => by simp [setOptions, hv]⟩

/-- A concrete configuration-store state used by the C9 witness. -/
def sampleStore : QueryStoreState :=
  { query := "q", sources := ["openalex", "pubmed"], llms := ["claude"],
    options := { searchDepth := .standard, maxResults := 20,
                 dateFrom := some "2020-01-01", dateTo := none,
                 openAccessOnly := false } }

/-- Witness for C9: updating only `maxResults` does not drop
`dateFrom`. -/
theorem setOptions_shallow_merge_witness :
    ((setOptions { maxResults := some 50 } sampleStore).options.dateFrom
      = sampleStore.options.dateFrom)
    ∧ ((setOptions { maxResults := some 50 } sampleStore).options.maxResults
      = 50) :=
  ⟨(setOptions_shallow_merge sampleStore
      { maxResults := some 50 }).2.2.2.2.2.1 rfl,
   (setOptions_shallow_merge sampleStore
      { maxResults := some 50 }).2.2.2.2.2.2.2.2 50 rfl⟩

/-- C10: a step event with status `error` and no detail field is
dispatched by the consumer as `failStep` with the fixed message
`"Step failed"` (the consumer always passes a defined message — the
preserve-previous-detail branch of `failStep` is unreachable through
it), so the matching step's detail becomes `"Step failed"` instead of
keeping its previous value. -/
theorem error_event_detail_defaulting (s : QueryProgressState)
    (now : Nat) (x : String) (md : Option JsRecord) :
    (∀ d : Option String,
      handleProgressEvent now (.step x .error d md) s
        = failStep now x (some (d.getD "Step failed")) s)
    ∧ (∀ (i : Nat) (st : QueryProgressStep),
      s.steps[i]? = some st → st.id = x →
      (handleProgressEvent now (.step x .error none md) s).steps[i]?
        = some { st with
                   status := .error,
                   detail := some "Step failed",
                   completedAt := some now }) := by
  refine ⟨fun d => rfl, fun i st hget hid => ?_⟩
  simp [handleProgressEvent, failStep, List.getElem?_map, hget, hid]

/-- Witness for C10: a step with previous detail `"old"` receives an
error event without detail; its detail becomes `"Step failed"`. -/
theorem error_event_detail_defaulting_witness :
    (handleProgressEvent 2 (.step "x" .error none none)
        (startStep 1 "x" (some "old") (initSteps [("x", "X")]))).steps[0]?
      = some { id := "x", label := "X", detail := some "Step failed",
               status := .error, startedAt := some 1,
               completedAt := some 2, metadata := none } :=
  (error_event_detail_defaulting
      (startStep 1 "x" (some "old") (initSteps [("x", "X")])) 2 "x" none).2 0
    { id := "x", label := "X", detail := some "old", status := .active,
      startedAt := some 1, completedAt := none, metadata := none } rfl rfl

end Acm20
